import Mathlib

/-!
# Peer grouper addresses, migration prechecks, GCE credentials, command logging

Shallow embeddings of four parts of the repository, each in its own namespace,
with the definitions first and the theorems after them.

* `Peergrouper`: the controller tracker of `worker/peergrouper` and its two
  address queries, `SelectMongoAddressFromSpace` and
  `GetPotentialMongoHostPorts`. The sources at hand hold the tracker's test
  suite (`worker/peergrouper/controllertracker_test.go`) but not the tracker
  itself, nor the `core/network` types it uses. These definitions therefore
  follow the specification (sections 3 and 4.1) and take names, field names,
  error texts and the shape of the results from the test suite.
* `Migration`: `SourcePrecheck` and `TargetPrecheck` of `migration/precheck.go`.
* `Google`: `Credentials` and `ConnectionConfig` of
  `provider/gce/google/config.go`.
* `Cmd`: `Log.Start`, `Infof` and `Verbosef` of `cmd/logging.go`.
-/

namespace Peergrouper

/-! ## Data model -/

/-- Modelled from the spec: the visibility scope of `core/network` (the type is
not in the sources). Section 3 lists exactly these three scopes; the test
suite uses `ScopeMachineLocal`, `ScopeCloudLocal` and `ScopePublic`. -/
inductive Scope where
  | ScopeMachineLocal
  | ScopeCloudLocal
  | ScopePublic
deriving DecidableEq, Repr

/-- Modelled from the spec: `network.SpaceAddress` (not in the sources), the
NodeAddress of section 3: a value (host or IP), a visibility scope and an
optional space identifier. An address that was never given a space has
`SpaceID = none`. -/
structure SpaceAddress where
  Value : String
  Scope : Scope
  SpaceID : Option String
deriving DecidableEq, Repr

/-- Modelled from the spec: `network.NewScopedSpaceAddress` (not in the
sources) as the test suite uses it: value and scope are set, no space is. -/
def NewScopedSpaceAddress (value : String) (scope : Scope) : SpaceAddress :=
  ⟨value, scope, none⟩

/-- Modelled from the spec: `network.SpaceInfo` (not in the sources), with the
two fields the test suite sets. -/
structure SpaceInfo where
  ID : String
  Name : String
deriving DecidableEq, Repr

/-- Modelled from the spec: `network.AlphaSpaceId` (not in the sources), the
empty/zero sentinel of section 4.1. Its value is the one the expected
message of `TestSelectMongoAddressFromSpaceErrorForEmptySpace` prints. -/
def AlphaSpaceId : String := "0"

/-- Modelled from the spec: the `controllerTracker` struct (not in the
sources) with the two fields the test suite initialises: the stable node ID
and the ordered address set. -/
structure controllerTracker where
  id : String
  addresses : List SpaceAddress
deriving DecidableEq, Repr

/-- Modelled from the spec: the two failures of the address resolver
(section 4.1), each carrying the identifiers its message names. -/
inductive SelectError where
  | InvalidSpaceArgument (spaceID : String) (nodeID : String)
  | NoAddressInSpace (nodeID : String) (spaceName : String)
deriving DecidableEq, Repr

/-- A string between double quotes, the way the expected messages of the test
suite show node IDs and space names. -/
def quoted (s : String) : String := "\"" ++ s ++ "\""

/-- Modelled from the spec: the message of each failure, word for word the
patterns the test suite matches. -/
def SelectError.Error : SelectError → String
  | .InvalidSpaceArgument spaceID nodeID =>
      "space ID " ++ spaceID ++
        " supplied as an argument for selecting Mongo address for controller node " ++
        quoted nodeID
  | .NoAddressInSpace nodeID spaceName =>
      "addresses for controller node " ++ quoted nodeID ++ " in space " ++
        quoted spaceName ++ " not found"

/-! ## String order -/

/-- Lexicographic comparison of two character sequences by code point, the order
of Go's `<` on strings and of `sort.Strings`. -/
def lexLE : List Char → List Char → Bool
  | [], _ => true
  | _ :: _, [] => false
  | a :: as, b :: bs =>
      if a.toNat < b.toNat then true
      else if b.toNat < a.toNat then false
      else lexLE as bs

/-- The string `s` is lexicographically at most `t`. -/
def strLE (s t : String) : Bool := lexLE s.data t.data

/-! ## Address resolver -/

/-- An address value combined with a port: `<value>:<port>`. -/
def hostPort (value : String) (port : Int) : String :=
  value ++ ":" ++ toString port

/-- The addresses whose space identifier equals the desired space's ID
(section 4.1: "filter the tracker's addresses to those whose space identifier
equals `desiredSpace`"). -/
def inSpace (space : SpaceInfo) (addrs : List SpaceAddress) : List SpaceAddress :=
  addrs.filter (fun a => a.SpaceID = some space.ID)

/-- The address with the lexicographically first value among `a` and `rest`,
scanning left to right and keeping the earlier one on equal values. -/
def lexFirst (a : SpaceAddress) : List SpaceAddress → SpaceAddress
  | [] => a
  | b :: rest => if strLE a.Value b.Value then lexFirst a rest else lexFirst b rest

/-- Modelled from the spec: `controllerTracker.SelectMongoAddressFromSpace`
(the method is not in the sources; its test suite is). Section 4.1: the
empty/zero sentinel space fails with `InvalidSpaceArgument`; otherwise the
tracker's addresses are filtered to those in the space; none left fails with
`NoAddressInSpace` naming the node ID and the space; exactly one left is
returned; several resolve to the lexicographically first address value. The
result is Go's `(string, error)` pair: the selected `<value>:<port>` and no
error, or the empty string and the error. The method is always handed a space;
the scope-ordered fallback that section 4.1 gives for "no preference" is a
case of the caller and has no branch here. -/
def controllerTracker.SelectMongoAddressFromSpace (c : controllerTracker) (port : Int)
    (space : SpaceInfo) : String × Option SelectError :=
  if space.ID = AlphaSpaceId then
    ("", some (.InvalidSpaceArgument space.ID c.id))
  else
    match inSpace space c.addresses with
    | [] => ("", some (.NoAddressInSpace c.id space.Name))
    | [a] => (hostPort a.Value port, none)
    | a :: b :: rest => (hostPort (lexFirst a (b :: rest)).Value port, none)

/-! ## Potential host ports -/

/-- Modelled from the spec: `network.SpaceHostPort` (not in the sources): an
address of a node together with a port. -/
structure SpaceHostPort where
  SpaceAddress : SpaceAddress
  Port : Int
deriving DecidableEq, Repr

/-- The `host:port` string of a host port. -/
def SpaceHostPort.hostPortString (hp : SpaceHostPort) : String :=
  hostPort hp.SpaceAddress.Value hp.Port

/-- Modelled from the spec: the `HostPorts().Strings()` chain the test suite
applies to the result (`core/network` is not in the sources): the `host:port`
string of every entry, in order. -/
def Strings (hps : List SpaceHostPort) : List String :=
  hps.map SpaceHostPort.hostPortString

/-- Order of two host ports by their `host:port` strings. -/
def hostPortLE (x y : SpaceHostPort) : Prop :=
  strLE x.hostPortString y.hostPortString = true

instance : DecidableRel hostPortLE := fun x y =>
  inferInstanceAs (Decidable (strLE x.hostPortString y.hostPortString = true))

/-- Modelled from the spec: `controllerTracker.GetPotentialMongoHostPorts`
(the method is not in the sources; its test suite is). Section 4.1: "returns
every address the node has, each combined with the given port, sorted for
deterministic comparison". -/
def controllerTracker.GetPotentialMongoHostPorts (c : controllerTracker) (port : Int) :
    List SpaceHostPort :=
  List.insertionSort hostPortLE (c.addresses.map (fun a => ⟨a, port⟩))

/-! ## The inputs of the test suite -/

/-- The space of `TestSelectMongoAddressFromSpaceReturnsCorrectAddress`. -/
def haSpace : SpaceInfo := ⟨"123", "ha-space"⟩

/-- The tracker of `TestSelectMongoAddressFromSpaceReturnsCorrectAddress`. -/
def trackerInSpace : controllerTracker :=
  ⟨"", [⟨"192.168.5.5", .ScopeCloudLocal, some "123"⟩,
        ⟨"192.168.10.5", .ScopeCloudLocal, some "456"⟩,
        NewScopedSpaceAddress "localhost" .ScopeMachineLocal]⟩

/-- The tracker of `TestSelectMongoAddressFromSpaceEmptyWhenNoAddressFound`. -/
def trackerLocalOnly : controllerTracker :=
  ⟨"3", [NewScopedSpaceAddress "localhost" .ScopeMachineLocal]⟩

/-- The tracker of `TestSelectMongoAddressFromSpaceErrorForEmptySpace`. -/
def trackerNoAddresses : controllerTracker := ⟨"3", []⟩

/-- The tracker of `TestGetPotentialMongoHostPortsReturnsAllAddresses`. -/
def trackerThree : controllerTracker :=
  ⟨"3", [NewScopedSpaceAddress "192.168.5.5" .ScopeCloudLocal,
         NewScopedSpaceAddress "10.0.0.1" .ScopeCloudLocal,
         NewScopedSpaceAddress "185.159.16.82" .ScopePublic]⟩

/-- The tracker of the first test with the second address moved into the
desired space too, so that two addresses compete. -/
def trackerTwoInSpace : controllerTracker :=
  ⟨"3", [⟨"192.168.5.5", .ScopeCloudLocal, some "123"⟩,
         ⟨"192.168.10.5", .ScopeCloudLocal, some "123"⟩,
         NewScopedSpaceAddress "localhost" .ScopeMachineLocal]⟩

end Peergrouper

/-! # Migration prechecks (`migration/precheck.go`) -/

namespace Migration

/-- The `version.Binary` inside `tools.Tools` (a type declared outside the
sources at hand); the prechecks read only its `Number`. The version number
type `V` is `version.Number`, taken as a parameter. -/
structure Binary (V : Type) where
  Number : V

/-- The `tools.Tools` of an agent (declared outside the sources at hand); the
prechecks read only `Version.Number`. -/
structure Tools (V : Type) where
  Version : Binary V

/-- The interface `PrecheckMachine`, as the answers of its two methods.
`AgentTools` returns `(*tools.Tools, error)`: an error (kept as its message),
or a pointer that may be nil. -/
structure PrecheckMachine (V : Type) where
  Id : String
  AgentTools : Except String (Option (Tools V))

/-- The interface `PrecheckBackend`, as the answers of its five methods, in the
order of the declaration: `NeedsCleanup`, `AgentVersion`, `AllMachines`,
`IsUpgrading`, `ControllerBackend`. A backend answers a query the same way
each time it is asked; an error is kept as its message. -/
inductive PrecheckBackend (V : Type) where
  | mk (NeedsCleanup : Except String Bool) (AgentVersion : Except String V)
      (AllMachines : Except String (List (PrecheckMachine V)))
      (IsUpgrading : Except String Bool)
      (ControllerBackend : Except String (PrecheckBackend V))

/-- The answer of `backend.NeedsCleanup()`. -/
def PrecheckBackend.NeedsCleanup {V : Type} : PrecheckBackend V → Except String Bool
  | .mk x _ _ _ _ => x

/-- The answer of `backend.AgentVersion()`. -/
def PrecheckBackend.AgentVersion {V : Type} : PrecheckBackend V → Except String V
  | .mk _ x _ _ _ => x

/-- The answer of `backend.AllMachines()`. -/
def PrecheckBackend.AllMachines {V : Type} :
    PrecheckBackend V → Except String (List (PrecheckMachine V))
  | .mk _ _ x _ _ => x

/-- The answer of `backend.IsUpgrading()`. -/
def PrecheckBackend.IsUpgrading {V : Type} : PrecheckBackend V → Except String Bool
  | .mk _ _ _ x _ => x

/-- The answer of `backend.ControllerBackend()`. -/
def PrecheckBackend.ControllerBackend {V : Type} :
    PrecheckBackend V → Except String (PrecheckBackend V)
  | .mk _ _ _ _ x => x

/-- What a precheck does: it returns nil, returns an error (kept as the text of
its `Error()`), or panics on dereferencing a nil `*tools.Tools`. -/
inductive Outcome where
  | nil
  | err (msg : String)
  | panic
deriving DecidableEq, Repr

/-- The message of `errors.Annotate(err, message)`: the annotation, a colon and
the message of the cause. -/
def Annotate (err : String) (message : String) : String :=
  message ++ ": " ++ err

/-- The outcome of `errors.Trace(err)`: nil stays nil and an error keeps its
message. -/
def Trace (o : Outcome) : Outcome := o

/-- The loop of `checkMachines` over the machines, with `versionString` the `String()`
method of `version.Number`. -/
def checkMachinesLoop {V : Type} [DecidableEq V] (versionString : V → String) (modelVersion : V) :
    List (PrecheckMachine V) → Outcome
  | [] => .nil
  | machine :: rest =>
      match machine.AgentTools with
      | .error err => .err (Annotate err ("retrieving tools for machine " ++ machine.Id))
      | .ok none => .panic
      | .ok (some tools) =>
          if tools.Version.Number ≠ modelVersion then
            .err ("machine " ++ machine.Id ++ " tools don't match model (" ++
              versionString tools.Version.Number ++ " != " ++ versionString modelVersion ++ ")")
          else checkMachinesLoop versionString modelVersion rest

/-- The function `checkMachines`. -/
def checkMachines {V : Type} [DecidableEq V] (versionString : V → String)
    (backend : PrecheckBackend V) : Outcome :=
  match backend.AgentVersion with
  | .error err => .err (Annotate err "retrieving model version")
  | .ok modelVersion =>
      match backend.AllMachines with
      | .error err => .err (Annotate err "retrieving machines")
      | .ok machines => checkMachinesLoop versionString modelVersion machines

/-- The function `checkController`. -/
def checkController {V : Type} [DecidableEq V] (versionString : V → String)
    (backend : PrecheckBackend V) : Outcome :=
  match backend.IsUpgrading with
  | .error err => .err (Annotate err "checking for upgrades")
  | .ok true => .err "upgrade in progress"
  | .ok false => Trace (checkMachines versionString backend)

/-- The function `SourcePrecheck`. -/
def SourcePrecheck {V : Type} [DecidableEq V] (versionString : V → String)
    (backend : PrecheckBackend V) : Outcome :=
  match backend.NeedsCleanup with
  | .error err => .err (Annotate err "checking cleanups")
  | .ok true => .err "cleanup needed"
  | .ok false =>
      match checkMachines versionString backend with
      | .panic => .panic
      | .err err => Trace (.err err)
      | .nil =>
          match backend.ControllerBackend with
          | .error err => Trace (.err err)
          | .ok controllerBackend =>
              match checkController versionString controllerBackend with
              | .panic => .panic
              | .err err => .err (Annotate err "controller")
              | .nil => .nil

/-- The function `TargetPrecheck`, with `Compare` the `Compare` method of
`version.Number`. -/
def TargetPrecheck {V : Type} [DecidableEq V] (Compare : V → V → Int) (versionString : V → String)
    (backend : PrecheckBackend V) (modelVersion : V) : Outcome :=
  match backend.AgentVersion with
  | .error err => .err (Annotate err "retrieving model version")
  | .ok controllerVersion =>
      if Compare controllerVersion modelVersion < 0 then
        .err ("model has higher version than target controller (" ++ versionString modelVersion ++
          " > " ++ versionString controllerVersion ++ ")")
      else Trace (checkController versionString backend)

/-- A stand-in for `version.Number.Compare` on version numbers that are plain
naturals: -1, 0 or 1. -/
def natCompare (v w : Nat) : Int :=
  if v = w then 0 else if v < w then -1 else 1

/-- A machine with ID `id` whose agent tools have version `v`. -/
def machineAt (id : String) (v : Nat) : PrecheckMachine Nat :=
  ⟨id, .ok (some ⟨⟨v⟩⟩)⟩

/-- A controller backend at version 2 with two machines at version 2, not
upgrading; it is its own controller backend only in name (that query fails). -/
def controllerAt2 : PrecheckBackend Nat :=
  .mk (.ok false) (.ok 2) (.ok [machineAt "0" 2, machineAt "1" 2]) (.ok false)
    (.error "not a model")

/-- A model backend at version 1 with one machine at version 1, no cleanup
needed, hosted by `controllerAt2`. -/
def modelAt1 : PrecheckBackend Nat :=
  .mk (.ok false) (.ok 1) (.ok [machineAt "0" 1]) (.ok false) (.ok controllerAt2)

end Migration

/-! # GCE credentials and connection config (`provider/gce/google/config.go`) -/

namespace Google

/-- A Go `string`, and equally a Go `[]byte`: a sequence of bytes. The
conversions `[]byte(v)` and `string(b)` copy the bytes unchanged, so both types
share this representation and the conversions leave the value as it is. -/
abbrev GoString := List UInt8

/-- The Go string of a string literal of the source: its UTF-8 bytes. -/
def gostr (s : String) : GoString := s.toUTF8.data.toList

/-- The constant `OSEnvPrivateKey`. -/
def OSEnvPrivateKey : GoString := gostr "GCE_PRIVATE_KEY"

/-- The constant `OSEnvClientID`. -/
def OSEnvClientID : GoString := gostr "GCE_CLIENT_ID"

/-- The constant `OSEnvClientEmail`. -/
def OSEnvClientEmail : GoString := gostr "GCE_CLIENT_EMAIL"

/-- The constant `OSEnvRegion`. -/
def OSEnvRegion : GoString := gostr "GCE_REGION"

/-- The constant `OSEnvProjectID`. -/
def OSEnvProjectID : GoString := gostr "GCE_PROJECT_ID"

/-- The struct `Credentials`. -/
structure Credentials where
  ClientID : GoString
  ClientEmail : GoString
  PrivateKey : List UInt8
deriving DecidableEq, Repr

/-- The struct `ConnectionConfig`. -/
structure ConnectionConfig where
  Region : GoString
  ProjectID : GoString
deriving DecidableEq, Repr

/-- The errors `config.go` returns, each kept as the call that builds it: the
constructors `NewMissingConfigValue(key, field)` and
`NewInvalidConfigValue(key, value, reason)` of the package are declared outside
the sources at hand, and `errors.NotSupportedf(format, arg)` is a library call.
The reason of an invalid value is the error of `mail.ParseAddress`, kept as its
message. -/
inductive ConfigError where
  | NewMissingConfigValue (key field : GoString)
  | NewInvalidConfigValue (key value : GoString) (reason : GoString)
  | NotSupportedf (format : GoString) (arg : GoString)
deriving DecidableEq, Repr

/-- The key a config-value error was built with (the documentation of both
`Validate` methods: the error is keyed by the OS environment variable name);
a not-supported error has none. -/
def ConfigError.Key : ConfigError → Option GoString
  | .NewMissingConfigValue key _ => some key
  | .NewInvalidConfigValue key _ _ => some key
  | .NotSupportedf _ _ => none

/-- The loop of `NewCredentials` over the entries of the map, in the order the
iteration visits them; `creds` is the value built so far. -/
def NewCredentials.loop (creds : Credentials) :
    List (GoString × GoString) → Except ConfigError Credentials
  | [] => .ok creds
  | (k, v) :: rest =>
      if k = OSEnvClientID then
        NewCredentials.loop ⟨v, creds.ClientEmail, creds.PrivateKey⟩ rest
      else if k = OSEnvClientEmail then
        NewCredentials.loop ⟨creds.ClientID, v, creds.PrivateKey⟩ rest
      else if k = OSEnvPrivateKey then
        NewCredentials.loop ⟨creds.ClientID, creds.ClientEmail, v⟩ rest
      else
        .error (.NotSupportedf (gostr "key %q") k)

/-- The function `NewCredentials`. The map `values` is given as the list of its
entries in the order `range` visits them (Go leaves that order open; a map has
no two entries with the same key). The result is `(*Credentials, error)`:
the credentials, or nil and the error. -/
def NewCredentials (values : List (GoString × GoString)) : Except ConfigError Credentials :=
  NewCredentials.loop ⟨[], [], []⟩ values

/-- The method `Credentials.Values`: the entries of the returned map, in the
order of the map literal. -/
def Credentials.Values (gc : Credentials) : List (GoString × GoString) :=
  [(OSEnvClientID, gc.ClientID), (OSEnvClientEmail, gc.ClientEmail),
    (OSEnvPrivateKey, gc.PrivateKey)]

/-- The method `Credentials.Validate`; `none` is a nil error. `ParseAddress` is
the error of `mail.ParseAddress` on an address (its message), if it has one. -/
def Credentials.Validate (ParseAddress : GoString → Option GoString) (gc : Credentials) :
    Option ConfigError :=
  if gc.ClientID = [] then
    some (.NewMissingConfigValue OSEnvClientID (gostr "ClientID"))
  else if gc.ClientEmail = [] then
    some (.NewMissingConfigValue OSEnvClientEmail (gostr "ClientEmail"))
  else
    match ParseAddress gc.ClientEmail with
    | some err => some (.NewInvalidConfigValue OSEnvClientEmail gc.ClientEmail err)
    | none =>
        if gc.PrivateKey.length = 0 then
          some (.NewMissingConfigValue OSEnvPrivateKey (gostr "PrivateKey"))
        else none

/-- The method `ConnectionConfig.Validate`; `none` is a nil error. -/
def ConnectionConfig.Validate (gc : ConnectionConfig) : Option ConfigError :=
  if gc.Region = [] then
    some (.NewMissingConfigValue OSEnvRegion (gostr "Region"))
  else if gc.ProjectID = [] then
    some (.NewMissingConfigValue OSEnvProjectID (gostr "ProjectID"))
  else none

/-- The value the loop of `NewCredentials` leaves in the field of key `k`: the
value of the last entry with that key, or `d` when there is none. -/
def lastValue (k : GoString) (d : GoString) : List (GoString × GoString) → GoString
  | [] => d
  | (k', v) :: rest => lastValue k (if k' = k then v else d) rest

/-- A stand-in for `mail.ParseAddress`: an address is accepted when it holds
an `@`. -/
def hasAt (s : GoString) : Option GoString :=
  if (64 : UInt8) ∈ s then none else some (gostr "mail: missing @ in address")

/-- Credentials that are valid under `hasAt`. -/
def goodCredentials : Credentials :=
  ⟨gostr "spam", gostr "user@mail.com", gostr "non-empty"⟩

end Google

/-! # Command logging (`cmd/logging.go`) -/

namespace Cmd

/-- The `loggo.Level` constants that `Start` uses. -/
inductive Level where
  | TRACE
  | DEBUG
  | INFO
  | WARNING
deriving DecidableEq, Repr

/-- The formatter handed to `loggo.NewSimpleWriter`: `&loggo.DefaultFormatter{}`
or `&warningFormatter{}`. -/
inductive Formatter where
  | DefaultFormatter
  | warningFormatter
deriving DecidableEq, Repr

/-- What a simple writer writes to: the file opened at a path, or an
`io.Writer` (of type `W`). -/
inductive Target (W : Type) where
  | File (path : String)
  | Writer (w : W)
deriving DecidableEq, Repr

/-- The value of `loggo.NewSimpleWriter(target, formatter)`. -/
structure SimpleWriter (W : Type) where
  target : Target W
  formatter : Formatter
deriving DecidableEq, Repr

/-- The calls `logging.go` makes to `os`, `loggo` and `io`, with their arguments:
`os.OpenFile(path, O_WRONLY|O_APPEND|O_CREATE, 0644)`, `loggo.RegisterWriter`,
`loggo.ReplaceDefaultWriter`, `loggo.RemoveWriter`,
`loggo.GetLogger(name).SetLogLevel`, `loggo.ConfigureLoggers`, the package
logger's `Infof` (with the formatted message) and `io.WriteString`. -/
inductive Call (W : Type) where
  | OpenFile (path : String)
  | RegisterWriter (name : String) (writer : SimpleWriter W) (level : Level)
  | ReplaceDefaultWriter (writer : SimpleWriter W)
  | RemoveWriter (name : String)
  | SetLogLevel (logger : String) (level : Level)
  | ConfigureLoggers (specification : String)
  | LoggerInfof (message : String)
  | WriteString (writer : W) (output : String)
deriving DecidableEq, Repr

/-- The state `logging.go` works on: the package variables `infoWriter` and
`verboseWriter` (`none` is a nil `io.Writer`), and the calls made so far to
`os`, `loggo` and `io`, oldest first. -/
structure World (W : Type) where
  infoWriter : Option W
  verboseWriter : Option W
  calls : List (Call W)
deriving DecidableEq, Repr

/-- The struct `Log`. -/
structure Log where
  Path : String
  Verbose : Bool
  Quiet : Bool
  Debug : Bool
  ShowLog : Bool
  Config : String
deriving DecidableEq, Repr

/-- The part of `Context` (declared outside the sources at hand) that `Start`
uses: the field `Stderr` and the method `AbsPath`. -/
structure Context (W : Type) where
  Stderr : W
  AbsPath : String → String

/-- Make a call: it is added to the calls made, and `fails` tells the error it
returns (as its message), if any, given the calls made before it. -/
def perform {W : Type} (fails : List (Call W) → Call W → Option String) (s : World W)
    (c : Call W) : World W × Option String :=
  (⟨s.infoWriter, s.verboseWriter, s.calls ++ [c]⟩, fails s.calls c)

/-- The function `writeInternal`, with `output` the text of
`fmt.Sprintf(format, params...)`: a nil writer passes the message to the
package logger, any other writer gets the output with a final newline. -/
def writeInternal {W : Type} (writer : Option W) (output : String) (s : World W) : World W :=
  match writer with
  | none => ⟨s.infoWriter, s.verboseWriter, s.calls ++ [.LoggerInfof output]⟩
  | some w =>
      let output := if output.data.getLast? = some '\n' then output else output ++ "\n"
      ⟨s.infoWriter, s.verboseWriter, s.calls ++ [.WriteString w output]⟩

/-- The function `Infof`. -/
def Infof {W : Type} (output : String) (s : World W) : World W :=
  writeInternal s.infoWriter output s

/-- The function `Verbosef`. -/
def Verbosef {W : Type} (output : String) (s : World W) : World W :=
  writeInternal s.verboseWriter output s

/-- The end of `Start`, from the choice of the level on: the default writer is
replaced or the warning writer registered, then the root level is set and the
loggers are configured. -/
def startWriters {W : Type} (fails : List (Call W) → Call W → Option String) (log : Log)
    (ctx : Context W) (s : World W) : World W × Log × Option String :=
  let level := if log.ShowLog then Level.INFO else Level.WARNING
  let log : Log := if log.Debug then ⟨log.Path, log.Verbose, log.Quiet, log.Debug, true, log.Config⟩
    else log
  let level := if log.Debug then Level.DEBUG else level
  let registered : World W × Option String :=
    if log.ShowLog then
      perform fails s (.ReplaceDefaultWriter ⟨.Writer ctx.Stderr, .DefaultFormatter⟩)
    else
      perform fails (perform fails s (.RemoveWriter "default")).1
        (.RegisterWriter "warning" ⟨.Writer ctx.Stderr, .warningFormatter⟩ .WARNING)
  match registered with
  | (s, some err) => (s, log, some err)
  | (s, none) =>
      let s := (perform fails s (.SetLogLevel "" level)).1
      let s := (perform fails s (.ConfigureLoggers log.Config)).1
      (s, log, none)

/-- The method `Log.Start`. The result is the state after the call, the `Log`
after the call (`Start` sets `ShowLog` when `Debug` is set) and the returned
error (`none` is nil). -/
def Log.Start {W : Type} (fails : List (Call W) → Call W → Option String) (log : Log)
    (ctx : Context W) (s : World W) : World W × Log × Option String :=
  if log.Verbose && log.Quiet then
    (s, log, some "\"verbose\" and \"quiet\" flags clash")
  else
    let s : World W :=
      if !log.Quiet then
        ⟨some ctx.Stderr, if log.Verbose then some ctx.Stderr else s.verboseWriter, s.calls⟩
      else s
    if log.Path ≠ "" then
      let path := ctx.AbsPath log.Path
      match perform fails s (.OpenFile path) with
      | (s, some err) => (s, log, some err)
      | (s, none) =>
          match perform fails s (.RegisterWriter "logfile" ⟨.File path, .DefaultFormatter⟩ .TRACE) with
          | (s, some err) => (s, log, some err)
          | (s, none) => startWriters fails log ctx s
    else startWriters fails log ctx s

/-- An environment in which no call fails. -/
def noFailure {W : Type} : List (Call W) → Call W → Option String :=
  fun _ _ => none

/-- A `Log` with only `Quiet` set. -/
def quietLog : Log := ⟨"", false, true, false, false, ""⟩

/-- A `Log` with `Verbose` and `Quiet` both set. -/
def clashLog : Log := ⟨"", true, true, false, false, ""⟩

/-- A context whose `Stderr` is the writer named `stderr`. -/
def stderrContext : Context String := ⟨"stderr", fun p => p⟩

/-- The state at program start: both writers nil, no call made. -/
def initialWorld : World String := ⟨none, none, []⟩

/-- A state in which an earlier `Start` without `Quiet` has set `infoWriter`. -/
def infoSetWorld : World String := ⟨some "stderr", none, []⟩

end Cmd

namespace Peergrouper

/-! ## The string order is a total order -/

theorem toNat_eq_of_not_lt {a b : Char} (h₁ : ¬ a.toNat < b.toNat) (h₂ : ¬ b.toNat < a.toNat) :
    a = b := by
  have h : a.toNat = b.toNat := by omega
  rw [← Char.ofNat_toNat a, ← Char.ofNat_toNat b, h]

theorem lexLE_refl : ∀ s : List Char, lexLE s s = true
  | [] => rfl
  | a :: as => by simp [lexLE, lexLE_refl as]

theorem lexLE_total : ∀ s t : List Char, lexLE s t = true ∨ lexLE t s = true
  | [], _ => Or.inl rfl
  | _ :: _, [] => Or.inr rfl
  | a :: as, b :: bs => by
      unfold lexLE
      by_cases h₁ : a.toNat < b.toNat
      · simp [h₁]
      · by_cases h₂ : b.toNat < a.toNat
        · simp [h₂]
        · simpa [h₁, h₂] using lexLE_total as bs

theorem lexLE_antisymm : ∀ s t : List Char, lexLE s t = true → lexLE t s = true → s = t
  | [], [], _, _ => rfl
  | [], _ :: _, _, h => by simp [lexLE] at h
  | _ :: _, [], h, _ => by simp [lexLE] at h
  | a :: as, b :: bs, h, h' => by
      unfold lexLE at h h'
      by_cases h₁ : a.toNat < b.toNat
      · have h₂ : ¬ b.toNat < a.toNat := by omega
        simp [h₁, h₂] at h'
      · by_cases h₂ : b.toNat < a.toNat
        · simp [h₁, h₂] at h
        · simp only [h₁, h₂, if_false] at h h'
          rw [toNat_eq_of_not_lt h₁ h₂, lexLE_antisymm as bs h h']

theorem lexLE_trans : ∀ s t u : List Char, lexLE s t = true → lexLE t u = true →
    lexLE s u = true
  | [], _, _, _, _ => rfl
  | _ :: _, [], _, h, _ => by simp [lexLE] at h
  | _ :: _, _ :: _, [], _, h => by simp [lexLE] at h
  | a :: as, b :: bs, c :: cs, h, h' => by
      unfold lexLE at h h' ⊢
      by_cases hab : a.toNat < b.toNat
      · by_cases hbc : b.toNat < c.toNat
        · have : a.toNat < c.toNat := by omega
          simp [this]
        · by_cases hcb : c.toNat < b.toNat
          · simp [hbc, hcb] at h'
          · have : a.toNat < c.toNat := by omega
            simp [this]
      · by_cases hba : b.toNat < a.toNat
        · simp [hab, hba] at h
        · simp only [hab, hba, if_false] at h
          by_cases hbc : b.toNat < c.toNat
          · have : a.toNat < c.toNat := by omega
            simp [this]
          · by_cases hcb : c.toNat < b.toNat
            · simp [hbc, hcb] at h'
            · simp only [hbc, hcb, if_false] at h'
              have h₁ : ¬ a.toNat < c.toNat := by omega
              have h₂ : ¬ c.toNat < a.toNat := by omega
              simp only [h₁, h₂, if_false]
              exact lexLE_trans as bs cs h h'

theorem strLE_refl (s : String) : strLE s s = true := lexLE_refl s.data

theorem strLE_total (s t : String) : strLE s t = true ∨ strLE t s = true :=
  lexLE_total s.data t.data

theorem strLE_trans {s t u : String} (h : strLE s t = true) (h' : strLE t u = true) :
    strLE s u = true :=
  lexLE_trans s.data t.data u.data h h'

theorem strLE_antisymm {s t : String} (h : strLE s t = true) (h' : strLE t s = true) :
    s = t :=
  String.ext (lexLE_antisymm s.data t.data h h')

/-! ## The address resolver -/

theorem mem_inSpace {space : SpaceInfo} {addrs : List SpaceAddress} {a : SpaceAddress} :
    a ∈ inSpace space addrs ↔ a ∈ addrs ∧ a.SpaceID = some space.ID := by
  simp [inSpace]

theorem lexFirst_mem (a : SpaceAddress) (l : List SpaceAddress) : lexFirst a l ∈ a :: l := by
  induction l generalizing a with
  | nil => simp [lexFirst]
  | cons b rest ih =>
    unfold lexFirst
    split
    · rcases List.mem_cons.mp (ih a) with h | h
      · simp [h]
      · simp [h]
    · exact List.mem_cons_of_mem a (ih b)

theorem lexFirst_le (a : SpaceAddress) (l : List SpaceAddress) :
    ∀ x ∈ a :: l, strLE (lexFirst a l).Value x.Value = true := by
  induction l generalizing a with
  | nil =>
    intro x hx
    rw [List.mem_singleton.mp hx]
    exact strLE_refl _
  | cons b rest ih =>
    intro x hx
    unfold lexFirst
    split
    next hab =>
      have ha := ih a a (List.mem_cons_self a rest)
      rcases List.mem_cons.mp hx with rfl | hx
      · exact ha
      · rcases List.mem_cons.mp hx with rfl | hx
        · exact strLE_trans ha hab
        · exact ih a x (List.mem_cons_of_mem a hx)
    next hab =>
      have hb := ih b b (List.mem_cons_self b rest)
      have hba : strLE b.Value a.Value = true :=
        (strLE_total b.Value a.Value).resolve_right hab
      rcases List.mem_cons.mp hx with rfl | hx
      · exact strLE_trans hb hba
      · exact ih b x hx

/-- With a resolved space and at least one address in it, the resolver returns
an address of the space whose value is lexicographically first there. -/
theorem select_of_inSpace (c : controllerTracker) (port : Int) (space : SpaceInfo)
    (hs : space.ID ≠ AlphaSpaceId) (hne : inSpace space c.addresses ≠ []) :
    ∃ a ∈ inSpace space c.addresses,
      (∀ b ∈ inSpace space c.addresses, strLE a.Value b.Value = true) ∧
      c.SelectMongoAddressFromSpace port space = (hostPort a.Value port, none) := by
  unfold controllerTracker.SelectMongoAddressFromSpace
  rw [if_neg hs]
  match h : inSpace space c.addresses with
  | [] => exact absurd h hne
  | [a] =>
    refine ⟨a, List.mem_singleton_self a, ?_, rfl⟩
    intro b hb
    rw [List.mem_singleton.mp hb]
    exact strLE_refl _
  | a :: b :: rest =>
    exact ⟨lexFirst a (b :: rest), lexFirst_mem a (b :: rest), lexFirst_le a (b :: rest), rfl⟩

/-- With a resolved space and no address in it, the resolver fails with
`NoAddressInSpace`. -/
theorem select_of_inSpace_nil (c : controllerTracker) (port : Int) (space : SpaceInfo)
    (hs : space.ID ≠ AlphaSpaceId) (hnil : inSpace space c.addresses = []) :
    c.SelectMongoAddressFromSpace port space =
      ("", some (.NoAddressInSpace c.id space.Name)) := by
  unfold controllerTracker.SelectMongoAddressFromSpace
  rw [if_neg hs, hnil]

/-- The outcome of the resolver is the same for any ordering of the addresses. -/
theorem select_perm (id : String) (l₁ l₂ : List SpaceAddress) (hp : l₁.Perm l₂) (port : Int)
    (space : SpaceInfo) :
    (controllerTracker.mk id l₁).SelectMongoAddressFromSpace port space =
      (controllerTracker.mk id l₂).SelectMongoAddressFromSpace port space := by
  by_cases hs : space.ID = AlphaSpaceId
  · simp [controllerTracker.SelectMongoAddressFromSpace, hs]
  · have hf : (inSpace space l₁).Perm (inSpace space l₂) := hp.filter _
    by_cases hnil : inSpace space l₁ = []
    · have hnil₂ : inSpace space l₂ = [] := by
        rw [hnil] at hf
        exact hf.symm.eq_nil
      rw [select_of_inSpace_nil ⟨id, l₁⟩ port space hs hnil,
        select_of_inSpace_nil ⟨id, l₂⟩ port space hs hnil₂]
    · have hne₂ : inSpace space l₂ ≠ [] := fun h => hnil (by
        rw [h] at hf
        exact hf.eq_nil)
      obtain ⟨a, ha, hamin, hsel₁⟩ := select_of_inSpace ⟨id, l₁⟩ port space hs hnil
      obtain ⟨b, hb, hbmin, hsel₂⟩ := select_of_inSpace ⟨id, l₂⟩ port space hs hne₂
      have hab : a.Value = b.Value :=
        strLE_antisymm (hamin b (hf.mem_iff.mpr hb)) (hbmin a (hf.mem_iff.mp ha))
      rw [hsel₁, hsel₂, hab]

/-! ## Claims on `SelectMongoAddressFromSpace` -/

/-- C1: for every tracker, port and space with a non-sentinel ID, if the
tracker has an address whose SpaceID equals the space's ID, then
`SelectMongoAddressFromSpace` returns no error and the string `<value>:<port>`
of an address of the tracker that is in that space (so never one of another
space or of no space). -/
theorem SelectMongoAddressFromSpace_returns_address_in_space (c : controllerTracker)
    (port : Int) (space : SpaceInfo) (hs : space.ID ≠ AlphaSpaceId)
    (hex : ∃ a ∈ c.addresses, a.SpaceID = some space.ID) :
    ∃ a ∈ c.addresses, a.SpaceID = some space.ID ∧
      c.SelectMongoAddressFromSpace port space = (a.Value ++ ":" ++ toString port, none) := by
  obtain ⟨x, hx, hxs⟩ := hex
  have hne : inSpace space c.addresses ≠ [] :=
    List.ne_nil_of_mem (mem_inSpace.mpr ⟨hx, hxs⟩)
  obtain ⟨a, ha, _, hsel⟩ := select_of_inSpace c port space hs hne
  exact ⟨a, (mem_inSpace.mp ha).1, (mem_inSpace.mp ha).2, hsel⟩

/-- C1 at the input of `TestSelectMongoAddressFromSpaceReturnsCorrectAddress`:
192.168.5.5 (space 123), 192.168.10.5 (space 456), localhost (no space),
port 666 and space 123 give `192.168.5.5:666` and no error. -/
theorem SelectMongoAddressFromSpace_returns_address_in_space_witness :
    haSpace.ID ≠ AlphaSpaceId ∧
    (∃ a ∈ trackerInSpace.addresses, a.SpaceID = some haSpace.ID) ∧
    (∃ a ∈ trackerInSpace.addresses, a.SpaceID = some haSpace.ID ∧
      trackerInSpace.SelectMongoAddressFromSpace 666 haSpace =
        (a.Value ++ ":" ++ toString (666 : Int), none)) ∧
    trackerInSpace.SelectMongoAddressFromSpace 666 haSpace = ("192.168.5.5:666", none) :=
  ⟨by decide, ⟨⟨"192.168.5.5", .ScopeCloudLocal, some "123"⟩, by decide, rfl⟩,
    SelectMongoAddressFromSpace_returns_address_in_space trackerInSpace 666 haSpace
      (by decide) ⟨⟨"192.168.5.5", .ScopeCloudLocal, some "123"⟩, by decide, rfl⟩,
    by decide⟩

/-- C2: for every tracker, port and space with a non-sentinel ID, if no address
of the tracker has a SpaceID equal to the space's ID, then
`SelectMongoAddressFromSpace` returns the empty string and an error whose
message is `addresses for controller node "<id>" in space "<name>" not found`,
with the tracker's node ID and the space's name. -/
theorem SelectMongoAddressFromSpace_not_found (c : controllerTracker) (port : Int)
    (space : SpaceInfo) (hs : space.ID ≠ AlphaSpaceId)
    (hno : ∀ a ∈ c.addresses, a.SpaceID ≠ some space.ID) :
    ∃ err, c.SelectMongoAddressFromSpace port space = ("", some err) ∧
      err.Error = "addresses for controller node \"" ++ c.id ++ "\" in space \"" ++
        space.Name ++ "\" not found" := by
  have hnil : inSpace space c.addresses = [] :=
    List.eq_nil_iff_forall_not_mem.mpr
      (fun a ha => hno a (mem_inSpace.mp ha).1 (mem_inSpace.mp ha).2)
  refine ⟨.NoAddressInSpace c.id space.Name, select_of_inSpace_nil c port space hs hnil, ?_⟩
  apply String.ext
  simp [SelectError.Error, quoted, String.data_append]

/-- C2 at the input of `TestSelectMongoAddressFromSpaceEmptyWhenNoAddressFound`:
node 3 with only localhost and the space `bad-space` give the empty string and
the message of the test. -/
theorem SelectMongoAddressFromSpace_not_found_witness :
    (⟨"whatever", "bad-space"⟩ : SpaceInfo).ID ≠ AlphaSpaceId ∧
    (∀ a ∈ trackerLocalOnly.addresses, a.SpaceID ≠ some "whatever") ∧
    (∃ err, trackerLocalOnly.SelectMongoAddressFromSpace 666 ⟨"whatever", "bad-space"⟩ =
        ("", some err) ∧
      err.Error = "addresses for controller node \"" ++ "3" ++ "\" in space \"" ++
        "bad-space" ++ "\" not found") ∧
    (trackerLocalOnly.SelectMongoAddressFromSpace 666 ⟨"whatever", "bad-space"⟩).2.map
        SelectError.Error =
      some "addresses for controller node \"3\" in space \"bad-space\" not found" :=
  ⟨by decide, by decide,
    SelectMongoAddressFromSpace_not_found trackerLocalOnly 666 ⟨"whatever", "bad-space"⟩
      (by decide) (by decide),
    by decide⟩

/-- C3: for every node ID, every list of addresses (the empty one included),
every port and every space name, `SelectMongoAddressFromSpace` with the space
ID `network.AlphaSpaceId` ("0") returns the invalid-space-argument error whose
message is `space ID 0 supplied as an argument for selecting Mongo address for
controller node "<id>"`; the outcome is the same whatever the addresses are. -/
theorem SelectMongoAddressFromSpace_rejects_alpha_space (id : String)
    (addrs : List SpaceAddress) (port : Int) (name : String) :
    AlphaSpaceId = "0" ∧
    (controllerTracker.mk id addrs).SelectMongoAddressFromSpace port ⟨AlphaSpaceId, name⟩ =
      ("", some (.InvalidSpaceArgument "0" id)) ∧
    (SelectError.InvalidSpaceArgument "0" id).Error =
      "space ID 0 supplied as an argument for selecting Mongo address for controller node \"" ++
        id ++ "\"" := by
  refine ⟨rfl, ?_, ?_⟩
  · simp [controllerTracker.SelectMongoAddressFromSpace, AlphaSpaceId]
  · apply String.ext
    simp [SelectError.Error, quoted, String.data_append]

/-- C9: for every tracker with two or more addresses in the desired (non-sentinel)
space, `SelectMongoAddressFromSpace` returns the `<value>:<port>` of an address
of that space whose value is lexicographically at most the value of every
address of the space, and the result is the same for every reordering of the
tracker's addresses. -/
theorem SelectMongoAddressFromSpace_lexicographically_first (c : controllerTracker)
    (port : Int) (space : SpaceInfo) (hs : space.ID ≠ AlphaSpaceId)
    (hmany : 2 ≤ (inSpace space c.addresses).length) :
    (∃ a ∈ c.addresses, a.SpaceID = some space.ID ∧
      (∀ b ∈ c.addresses, b.SpaceID = some space.ID → strLE a.Value b.Value = true) ∧
      c.SelectMongoAddressFromSpace port space = (a.Value ++ ":" ++ toString port, none)) ∧
    (∀ addrs : List SpaceAddress, addrs.Perm c.addresses →
      (controllerTracker.mk c.id addrs).SelectMongoAddressFromSpace port space =
        c.SelectMongoAddressFromSpace port space) := by
  constructor
  · have hne : inSpace space c.addresses ≠ [] := by
      intro h
      rw [h] at hmany
      simp at hmany
    obtain ⟨a, ha, hmin, hsel⟩ := select_of_inSpace c port space hs hne
    exact ⟨a, (mem_inSpace.mp ha).1, (mem_inSpace.mp ha).2,
      fun b hb hbs => hmin b (mem_inSpace.mpr ⟨hb, hbs⟩), hsel⟩
  · intro addrs hp
    exact select_perm c.id addrs c.addresses hp port space

/-- C9 at a tracker holding 192.168.5.5 and 192.168.10.5 both in space 123:
192.168.10.5 is selected, in either order of the addresses. -/
theorem SelectMongoAddressFromSpace_lexicographically_first_witness :
    haSpace.ID ≠ AlphaSpaceId ∧
    2 ≤ (inSpace haSpace trackerTwoInSpace.addresses).length ∧
    trackerTwoInSpace.SelectMongoAddressFromSpace 666 haSpace = ("192.168.10.5:666", none) ∧
    (controllerTracker.mk "3" trackerTwoInSpace.addresses.reverse).SelectMongoAddressFromSpace
        666 haSpace = ("192.168.10.5:666", none) :=
  ⟨by decide, by decide, by decide,
    ((SelectMongoAddressFromSpace_lexicographically_first trackerTwoInSpace 666 haSpace
      (by decide) (by decide)).2 trackerTwoInSpace.addresses.reverse
      (List.reverse_perm _)).trans (by decide)⟩

/-! ## Claims on `GetPotentialMongoHostPorts` -/

theorem hostPortLE_total (x y : SpaceHostPort) : hostPortLE x y ∨ hostPortLE y x :=
  strLE_total x.hostPortString y.hostPortString

theorem hostPortLE_trans (x y z : SpaceHostPort) (h : hostPortLE x y) (h' : hostPortLE y z) :
    hostPortLE x z :=
  strLE_trans h h'

theorem getPotentialMongoHostPorts_perm (c : controllerTracker) (port : Int) :
    (c.GetPotentialMongoHostPorts port).Perm (c.addresses.map (fun a => ⟨a, port⟩)) :=
  List.perm_insertionSort hostPortLE _

theorem strings_getPotentialMongoHostPorts_perm (c : controllerTracker) (port : Int) :
    (Strings (c.GetPotentialMongoHostPorts port)).Perm
      (c.addresses.map (fun a => a.Value ++ ":" ++ toString port)) := by
  have h := (getPotentialMongoHostPorts_perm c port).map SpaceHostPort.hostPortString
  simpa [Strings, List.map_map, Function.comp_def, SpaceHostPort.hostPortString, hostPort]
    using h

theorem strings_getPotentialMongoHostPorts_sorted (c : controllerTracker) (port : Int) :
    List.Sorted (fun s t => strLE s t = true) (Strings (c.GetPotentialMongoHostPorts port)) := by
  haveI : IsTotal SpaceHostPort hostPortLE := ⟨hostPortLE_total⟩
  haveI : IsTrans SpaceHostPort hostPortLE := ⟨hostPortLE_trans⟩
  have h : List.Sorted hostPortLE (c.GetPotentialMongoHostPorts port) :=
    List.sorted_insertionSort hostPortLE _
  exact List.pairwise_map.mpr h

/-- C4: for every tracker and port, `GetPotentialMongoHostPorts` returns exactly
one host port per address of the tracker, each the address combined with the
given port: the result is a permutation of the addresses paired with the port,
its `host:port` strings are a permutation of the address values each suffixed
with `:<port>`, and it has as many entries as the tracker has addresses,
whatever their scope. At the input of
`TestGetPotentialMongoHostPortsReturnsAllAddresses` the strings, once sorted,
are `10.0.0.1:666`, `185.159.16.82:666`, `192.168.5.5:666`. -/
theorem GetPotentialMongoHostPorts_returns_all_addresses (c : controllerTracker)
    (port : Int) :
    (c.GetPotentialMongoHostPorts port).Perm (c.addresses.map (fun a => ⟨a, port⟩)) ∧
    (Strings (c.GetPotentialMongoHostPorts port)).Perm
      (c.addresses.map (fun a => a.Value ++ ":" ++ toString port)) ∧
    (c.GetPotentialMongoHostPorts port).length = c.addresses.length ∧
    List.insertionSort (fun s t => strLE s t = true)
        (Strings (trackerThree.GetPotentialMongoHostPorts 666)) =
      ["10.0.0.1:666", "185.159.16.82:666", "192.168.5.5:666"] := by
  refine ⟨getPotentialMongoHostPorts_perm c port,
    strings_getPotentialMongoHostPorts_perm c port, ?_, by decide⟩
  simpa using (getPotentialMongoHostPorts_perm c port).length_eq

/-- C10: for every tracker and port, the `host:port` strings of the list
returned by `GetPotentialMongoHostPorts` are in lexicographic order, and two
trackers holding the same addresses in different orders return the same list
of `host:port` strings. -/
theorem GetPotentialMongoHostPorts_sorted (c : controllerTracker) (port : Int) :
    List.Sorted (fun s t => strLE s t = true) (Strings (c.GetPotentialMongoHostPorts port)) ∧
    (∀ d : controllerTracker, d.addresses.Perm c.addresses →
      Strings (d.GetPotentialMongoHostPorts port) =
        Strings (c.GetPotentialMongoHostPorts port)) := by
  refine ⟨strings_getPotentialMongoHostPorts_sorted c port, ?_⟩
  intro d hp
  haveI : IsAntisymm String (fun s t => strLE s t = true) := ⟨fun _ _ => strLE_antisymm⟩
  refine List.eq_of_perm_of_sorted ?_ (strings_getPotentialMongoHostPorts_sorted d port)
    (strings_getPotentialMongoHostPorts_sorted c port)
  exact ((strings_getPotentialMongoHostPorts_perm d port).trans
    (hp.map _)).trans (strings_getPotentialMongoHostPorts_perm c port).symm

/-- C10 at the tracker of `TestGetPotentialMongoHostPortsReturnsAllAddresses`
and at the same addresses in reverse order: both give the sorted list of the
test, without sorting it again. -/
theorem GetPotentialMongoHostPorts_sorted_witness :
    Strings (trackerThree.GetPotentialMongoHostPorts 666) =
      ["10.0.0.1:666", "185.159.16.82:666", "192.168.5.5:666"] ∧
    Strings ((controllerTracker.mk "4" trackerThree.addresses.reverse).GetPotentialMongoHostPorts
      666) = ["10.0.0.1:666", "185.159.16.82:666", "192.168.5.5:666"] :=
  ⟨by decide,
    ((GetPotentialMongoHostPorts_sorted trackerThree 666).2
      ⟨"4", trackerThree.addresses.reverse⟩ (List.reverse_perm _)).trans (by decide)⟩

end Peergrouper

namespace Migration

/-! ## Migration prechecks -/

theorem checkMachinesLoop_nil_iff {V : Type} [DecidableEq V] (versionString : V → String)
    (modelVersion : V) (machines : List (PrecheckMachine V)) :
    checkMachinesLoop versionString modelVersion machines = .nil ↔
      ∀ m ∈ machines, ∃ tools, m.AgentTools = .ok (some tools) ∧
        tools.Version.Number = modelVersion := by
  induction machines with
  | nil => simp [checkMachinesLoop]
  | cons m rest ih =>
    unfold checkMachinesLoop
    rcases h : m.AgentTools with err | _ | tools
    · simp [h]
    · simp [h]
    · by_cases hv : tools.Version.Number = modelVersion
      · simp [h, hv, ih]
      · simp [h, hv]

theorem checkMachines_nil_iff {V : Type} [DecidableEq V] (versionString : V → String)
    (backend : PrecheckBackend V) (modelVersion : V) (machines : List (PrecheckMachine V))
    (hv : backend.AgentVersion = .ok modelVersion) (hm : backend.AllMachines = .ok machines) :
    checkMachines versionString backend = .nil ↔
      ∀ m ∈ machines, ∃ tools, m.AgentTools = .ok (some tools) ∧
        tools.Version.Number = modelVersion := by
  unfold checkMachines
  simp only [hv, hm]
  exact checkMachinesLoop_nil_iff versionString modelVersion machines

theorem checkController_nil_iff {V : Type} [DecidableEq V] (versionString : V → String)
    (backend : PrecheckBackend V) (modelVersion : V) (machines : List (PrecheckMachine V))
    (upgrading : Bool) (hu : backend.IsUpgrading = .ok upgrading)
    (hv : backend.AgentVersion = .ok modelVersion) (hm : backend.AllMachines = .ok machines) :
    checkController versionString backend = .nil ↔
      upgrading = false ∧ ∀ m ∈ machines, ∃ tools, m.AgentTools = .ok (some tools) ∧
        tools.Version.Number = modelVersion := by
  unfold checkController
  cases upgrading with
  | true => simp [hu]
  | false =>
    simp only [hu, Trace, true_and]
    exact checkMachines_nil_iff versionString backend modelVersion machines hv hm

/-- C11: for every model backend on which the queries of `SourcePrecheck`
succeed, `SourcePrecheck` returns nil if and only if `NeedsCleanup` is false,
every machine of the model has agent tools whose version number equals the
model's `AgentVersion`, the controller backend's `IsUpgrading` is false, and
every machine of the controller backend has agent tools whose version number
equals the controller backend's `AgentVersion`. -/
theorem SourcePrecheck_nil_iff {V : Type} [DecidableEq V] (versionString : V → String)
    (backend controllerBackend : PrecheckBackend V) (cleanupNeeded upgrading : Bool)
    (modelVersion controllerVersion : V) (machines controllerMachines : List (PrecheckMachine V))
    (hc : backend.NeedsCleanup = .ok cleanupNeeded)
    (hv : backend.AgentVersion = .ok modelVersion)
    (hm : backend.AllMachines = .ok machines)
    (hb : backend.ControllerBackend = .ok controllerBackend)
    (hcu : controllerBackend.IsUpgrading = .ok upgrading)
    (hcv : controllerBackend.AgentVersion = .ok controllerVersion)
    (hcm : controllerBackend.AllMachines = .ok controllerMachines) :
    SourcePrecheck versionString backend = .nil ↔
      cleanupNeeded = false ∧
      (∀ m ∈ machines, ∃ tools, m.AgentTools = .ok (some tools) ∧
        tools.Version.Number = modelVersion) ∧
      upgrading = false ∧
      (∀ m ∈ controllerMachines, ∃ tools, m.AgentTools = .ok (some tools) ∧
        tools.Version.Number = controllerVersion) := by
  have h₁ := checkMachines_nil_iff versionString backend modelVersion machines hv hm
  have h₂ := checkController_nil_iff versionString controllerBackend controllerVersion
    controllerMachines upgrading hcu hcv hcm
  unfold SourcePrecheck
  cases cleanupNeeded with
  | true => simp [hc]
  | false =>
    simp only [hc, true_and]
    rcases hcm₁ : checkMachines versionString backend with _ | e | _
    · simp only [hb]
      rw [hcm₁] at h₁
      rcases hcc : checkController versionString controllerBackend with _ | e | _
      · rw [hcc] at h₂
        simp only [true_iff] at h₁ h₂ ⊢
        exact ⟨h₁, h₂⟩
      · rw [hcc] at h₂
        simp only [reduceCtorEq, false_iff] at h₂ ⊢
        exact fun h => h₂ h.2
      · rw [hcc] at h₂
        simp only [reduceCtorEq, false_iff] at h₂ ⊢
        exact fun h => h₂ h.2
    · rw [hcm₁] at h₁
      simp only [Trace, reduceCtorEq, false_iff] at h₁ ⊢
      exact fun h => h₁ h.1
    · rw [hcm₁] at h₁
      simp only [reduceCtorEq, false_iff] at h₁ ⊢
      exact fun h => h₁ h.1

/-- C11 at a model at version 1 with one machine at version 1, hosted by a
controller at version 2 with two machines at version 2, nothing to clean up
and no upgrade under way: `SourcePrecheck` returns nil. -/
theorem SourcePrecheck_nil_iff_witness :
    SourcePrecheck (toString : Nat → String) modelAt1 = .nil ∧
    (SourcePrecheck (toString : Nat → String) modelAt1 = .nil ↔
      false = false ∧
      (∀ m ∈ [machineAt "0" 1], ∃ tools, m.AgentTools = .ok (some tools) ∧
        tools.Version.Number = 1) ∧
      false = false ∧
      (∀ m ∈ [machineAt "0" 2, machineAt "1" 2], ∃ tools,
        m.AgentTools = .ok (some tools) ∧ tools.Version.Number = 2)) :=
  ⟨by decide,
    SourcePrecheck_nil_iff toString modelAt1 controllerAt2 false false 1 2
      [machineAt "0" 1] [machineAt "0" 2, machineAt "1" 2] rfl rfl rfl rfl rfl rfl rfl⟩

/-- C12: for every target controller backend on which the queries of
`TargetPrecheck` succeed and every model version, `TargetPrecheck` returns nil
if and only if the controller's `AgentVersion` is not below the model version
(`Compare` gives 0 or more, so equal versions pass), `IsUpgrading` is false and
every machine's agent tools version equals the controller's `AgentVersion`.
When the model version is strictly higher, every backend with that
`AgentVersion`, whatever its upgrade state and machines, gets the error
`model has higher version than target controller (<model> > <controller>)`. -/
theorem TargetPrecheck_nil_iff {V : Type} [DecidableEq V] (Compare : V → V → Int)
    (versionString : V → String) (backend : PrecheckBackend V) (modelVersion controllerVersion : V)
    (upgrading : Bool) (machines : List (PrecheckMachine V))
    (hv : backend.AgentVersion = .ok controllerVersion)
    (hu : backend.IsUpgrading = .ok upgrading)
    (hm : backend.AllMachines = .ok machines) :
    (TargetPrecheck Compare versionString backend modelVersion = .nil ↔
      0 ≤ Compare controllerVersion modelVersion ∧ upgrading = false ∧
      (∀ m ∈ machines, ∃ tools, m.AgentTools = .ok (some tools) ∧
        tools.Version.Number = controllerVersion)) ∧
    (Compare controllerVersion modelVersion < 0 →
      ∀ other : PrecheckBackend V, other.AgentVersion = .ok controllerVersion →
        TargetPrecheck Compare versionString other modelVersion =
          .err ("model has higher version than target controller (" ++ versionString modelVersion ++
            " > " ++ versionString controllerVersion ++ ")")) := by
  constructor
  · unfold TargetPrecheck
    simp only [hv]
    by_cases hlt : Compare controllerVersion modelVersion < 0
    · have hge : ¬ 0 ≤ Compare controllerVersion modelVersion := by omega
      simp [hlt, hge]
    · have hge : 0 ≤ Compare controllerVersion modelVersion := by omega
      simp only [hlt, if_false, Trace, hge, true_and]
      exact checkController_nil_iff versionString backend controllerVersion machines upgrading hu hv hm
  · intro hlt other ho
    unfold TargetPrecheck
    simp [ho, hlt]

/-- C12 at a controller at version 2 with two machines at version 2 and no
upgrade under way: a model at version 2 (equal versions) passes, and a model at
version 3 gets the error `model has higher version than target controller
(3 > 2)`. -/
theorem TargetPrecheck_nil_iff_witness :
    TargetPrecheck natCompare toString controllerAt2 2 = .nil ∧
    TargetPrecheck natCompare toString controllerAt2 3 =
      .err "model has higher version than target controller (3 > 2)" ∧
    (natCompare 2 3 < 0 →
      ∀ other : PrecheckBackend Nat, other.AgentVersion = .ok 2 →
        TargetPrecheck natCompare toString other 3 =
          .err ("model has higher version than target controller (" ++ toString 3 ++
            " > " ++ toString 2 ++ ")")) :=
  ⟨by decide, by decide,
    (TargetPrecheck_nil_iff natCompare toString controllerAt2 3 2 false
      [machineAt "0" 2, machineAt "1" 2] rfl rfl rfl).2⟩

end Migration

namespace Google

/-! ## GCE credentials and connection config -/

theorem osEnv_keys_distinct :
    OSEnvClientID ≠ OSEnvClientEmail ∧ OSEnvClientID ≠ OSEnvPrivateKey ∧
      OSEnvClientEmail ≠ OSEnvPrivateKey := by
  decide

/-- The loop of `NewCredentials` fails exactly on an entry whose key is none of
the three names, and otherwise leaves in each field the last value of its key. -/
theorem loop_eq (values : List (GoString × GoString)) (creds : Credentials) :
    (∀ kv ∈ values, kv.1 = OSEnvClientID ∨ kv.1 = OSEnvClientEmail ∨ kv.1 = OSEnvPrivateKey) →
    NewCredentials.loop creds values =
      .ok ⟨lastValue OSEnvClientID creds.ClientID values,
        lastValue OSEnvClientEmail creds.ClientEmail values,
        lastValue OSEnvPrivateKey creds.PrivateKey values⟩ := by
  obtain ⟨h₁, h₂, h₃⟩ := osEnv_keys_distinct
  induction values generalizing creds with
  | nil => intro _; rfl
  | cons kv rest ih =>
    intro hk
    obtain ⟨k, v⟩ := kv
    have hrest : ∀ kv ∈ rest,
        kv.1 = OSEnvClientID ∨ kv.1 = OSEnvClientEmail ∨ kv.1 = OSEnvPrivateKey :=
      fun kv h => hk kv (List.mem_cons_of_mem _ h)
    unfold NewCredentials.loop
    rcases hk (k, v) (List.mem_cons_self _ _) with h | h | h
    · simp only at h
      subst h
      simp [ih _ hrest, lastValue, h₁, h₂]
    · simp only at h
      subst h
      simp [ih _ hrest, lastValue, h₁.symm, h₃]
    · simp only at h
      subst h
      simp [ih _ hrest, lastValue, h₂.symm, h₃.symm]

theorem loop_error (values : List (GoString × GoString)) (creds : Credentials)
    (hbad : ∃ kv ∈ values,
      kv.1 ≠ OSEnvClientID ∧ kv.1 ≠ OSEnvClientEmail ∧ kv.1 ≠ OSEnvPrivateKey) :
    ∃ kv ∈ values, (kv.1 ≠ OSEnvClientID ∧ kv.1 ≠ OSEnvClientEmail ∧ kv.1 ≠ OSEnvPrivateKey) ∧
      NewCredentials.loop creds values = .error (.NotSupportedf (gostr "key %q") kv.1) := by
  induction values generalizing creds with
  | nil => simp at hbad
  | cons kv rest ih =>
    obtain ⟨k, v⟩ := kv
    by_cases hk : k ≠ OSEnvClientID ∧ k ≠ OSEnvClientEmail ∧ k ≠ OSEnvPrivateKey
    · refine ⟨(k, v), List.mem_cons_self _ _, hk, ?_⟩
      unfold NewCredentials.loop
      simp [hk.1, hk.2.1, hk.2.2]
    · have hrest : ∃ kv ∈ rest,
          kv.1 ≠ OSEnvClientID ∧ kv.1 ≠ OSEnvClientEmail ∧ kv.1 ≠ OSEnvPrivateKey := by
        obtain ⟨kv, hmem, hkv⟩ := hbad
        rcases List.mem_cons.mp hmem with rfl | hmem
        · exact absurd hkv hk
        · exact ⟨kv, hmem, hkv⟩
      unfold NewCredentials.loop
      split_ifs with c₁ c₂ c₃
      · obtain ⟨kv, hmem, hkv, he⟩ := ih _ hrest
        exact ⟨kv, List.mem_cons_of_mem _ hmem, hkv, he⟩
      · obtain ⟨kv, hmem, hkv, he⟩ := ih _ hrest
        exact ⟨kv, List.mem_cons_of_mem _ hmem, hkv, he⟩
      · obtain ⟨kv, hmem, hkv, he⟩ := ih _ hrest
        exact ⟨kv, List.mem_cons_of_mem _ hmem, hkv, he⟩
      · exact absurd ⟨c₁, c₂, c₃⟩ hk

theorem lastValue_of_not_mem (k d : GoString) (values : List (GoString × GoString))
    (h : k ∉ values.map Prod.fst) : lastValue k d values = d := by
  induction values generalizing d with
  | nil => rfl
  | cons kv rest ih =>
    obtain ⟨k', v⟩ := kv
    simp only [List.map_cons, List.mem_cons, not_or] at h
    have hne : ¬ k' = k := fun e => h.1 e.symm
    simp [lastValue, hne, ih _ h.2]

theorem lastValue_of_mem (k d v : GoString) (values : List (GoString × GoString))
    (hnd : (values.map Prod.fst).Nodup) (h : (k, v) ∈ values) : lastValue k d values = v := by
  induction values generalizing d with
  | nil => simp at h
  | cons kv rest ih =>
    obtain ⟨k', v'⟩ := kv
    simp only [List.map_cons, List.nodup_cons] at hnd
    rcases List.mem_cons.mp h with heq | hmem
    · simp only [Prod.mk.injEq] at heq
      obtain ⟨rfl, rfl⟩ := heq
      simp [lastValue, lastValue_of_not_mem _ _ _ hnd.1]
    · have hne : ¬ k' = k := by
        intro e
        subst e
        exact hnd.1 (List.mem_map.mpr ⟨(k', v), hmem, rfl⟩)
      simp [lastValue, hne, ih _ hnd.2 hmem]

theorem newCredentials_error_iff (values : List (GoString × GoString)) :
    (∃ e, NewCredentials values = .error e) ↔
      ∃ kv ∈ values,
        kv.1 ≠ OSEnvClientID ∧ kv.1 ≠ OSEnvClientEmail ∧ kv.1 ≠ OSEnvPrivateKey := by
  constructor
  · rintro ⟨e, he⟩
    by_contra hno
    have hall : ∀ kv ∈ values,
        kv.1 = OSEnvClientID ∨ kv.1 = OSEnvClientEmail ∨ kv.1 = OSEnvPrivateKey := by
      intro kv hmem
      by_contra hk
      simp only [not_or] at hk
      exact hno ⟨kv, hmem, hk⟩
    have := loop_eq values ⟨[], [], []⟩ hall
    unfold NewCredentials at he
    rw [this] at he
    cases he
  · intro hbad
    obtain ⟨kv, _, _, he⟩ := loop_error values ⟨[], [], []⟩ hbad
    exact ⟨_, he⟩

/-- C13: for every `Credentials` value, `Validate` returns nil if and only if
`ClientID` is non-empty, `ClientEmail` is non-empty and accepted by the e-mail
address parser, and `PrivateKey` has length greater than zero. -/
theorem Credentials_Validate_nil_iff (ParseAddress : GoString → Option GoString)
    (gc : Credentials) :
    gc.Validate ParseAddress = none ↔
      gc.ClientID ≠ [] ∧ gc.ClientEmail ≠ [] ∧ ParseAddress gc.ClientEmail = none ∧
        0 < gc.PrivateKey.length := by
  unfold Credentials.Validate
  by_cases h₁ : gc.ClientID = []
  · simp [h₁]
  · by_cases h₂ : gc.ClientEmail = []
    · simp [h₁, h₂]
    · rcases h₃ : ParseAddress gc.ClientEmail with _ | err
      · by_cases h₄ : gc.PrivateKey.length = 0
        · simp [h₁, h₂, h₄]
        · simp [h₁, h₂, h₄, Nat.pos_of_ne_zero h₄]
      · simp [h₁, h₂]

/-- C13 at credentials with all three fields set and a parsable e-mail address:
`Validate` returns nil. -/
theorem Credentials_Validate_nil_iff_witness :
    goodCredentials.Validate hasAt = none :=
  (Credentials_Validate_nil_iff hasAt goodCredentials).mpr (by decide)

/-- C14: for every invalid `Credentials` value the error of `Validate` is keyed
by the OS environment variable name of the first invalid field, in the order
`ClientID` (`GCE_CLIENT_ID`), `ClientEmail` (`GCE_CLIENT_EMAIL`, for the empty and
for the unparsable address), `PrivateKey` (`GCE_PRIVATE_KEY`): an empty
`ClientID` gives `GCE_CLIENT_ID` whatever the other fields hold, and
`GCE_PRIVATE_KEY` is the key only when `ClientID` and `ClientEmail` are valid. -/
theorem Credentials_Validate_first_invalid_field (ParseAddress : GoString → Option GoString)
    (gc : Credentials) :
    (OSEnvClientID = gostr "GCE_CLIENT_ID" ∧ OSEnvClientEmail = gostr "GCE_CLIENT_EMAIL" ∧
      OSEnvPrivateKey = gostr "GCE_PRIVATE_KEY") ∧
    (gc.ClientID = [] →
      gc.Validate ParseAddress =
        some (.NewMissingConfigValue OSEnvClientID (gostr "ClientID"))) ∧
    (gc.ClientID ≠ [] → gc.ClientEmail = [] →
      gc.Validate ParseAddress =
        some (.NewMissingConfigValue OSEnvClientEmail (gostr "ClientEmail"))) ∧
    (gc.ClientID ≠ [] → gc.ClientEmail ≠ [] →
      ∀ err, ParseAddress gc.ClientEmail = some err →
        gc.Validate ParseAddress =
          some (.NewInvalidConfigValue OSEnvClientEmail gc.ClientEmail err)) ∧
    (gc.ClientID ≠ [] → gc.ClientEmail ≠ [] → ParseAddress gc.ClientEmail = none →
      gc.PrivateKey = [] →
      gc.Validate ParseAddress =
        some (.NewMissingConfigValue OSEnvPrivateKey (gostr "PrivateKey"))) ∧
    (∀ e, gc.Validate ParseAddress = some e →
      e.Key = some OSEnvClientID ∨ e.Key = some OSEnvClientEmail ∨
        e.Key = some OSEnvPrivateKey) ∧
    (∀ e, gc.Validate ParseAddress = some e → e.Key = some OSEnvPrivateKey →
      gc.ClientID ≠ [] ∧ gc.ClientEmail ≠ [] ∧ ParseAddress gc.ClientEmail = none) := by
  obtain ⟨k₁, k₂, k₃⟩ := osEnv_keys_distinct
  refine ⟨⟨rfl, rfl, rfl⟩, ?_, ?_, ?_, ?_, ?_, ?_⟩
  · intro h₁
    simp [Credentials.Validate, h₁]
  · intro h₁ h₂
    simp [Credentials.Validate, h₁, h₂]
  · intro h₁ h₂ err h₃
    simp [Credentials.Validate, h₁, h₂, h₃]
  · intro h₁ h₂ h₃ h₄
    simp [Credentials.Validate, h₁, h₂, h₃, h₄]
  · intro e he
    unfold Credentials.Validate at he
    by_cases h₁ : gc.ClientID = []
    · simp only [h₁, if_true, Option.some.injEq] at he
      subst he
      exact Or.inl rfl
    · by_cases h₂ : gc.ClientEmail = []
      · simp only [h₁, h₂, if_true, if_false, Option.some.injEq] at he
        subst he
        exact Or.inr (Or.inl rfl)
      · rcases h₃ : ParseAddress gc.ClientEmail with _ | err
        · by_cases h₄ : gc.PrivateKey.length = 0
          · simp only [h₁, h₂, h₃, h₄, if_true, if_false, Option.some.injEq] at he
            subst he
            exact Or.inr (Or.inr rfl)
          · simp [h₁, h₂, h₃, h₄] at he
        · simp only [h₁, h₂, h₃, if_false, Option.some.injEq] at he
          subst he
          exact Or.inr (Or.inl rfl)
  · intro e he hkey
    unfold Credentials.Validate at he
    by_cases h₁ : gc.ClientID = []
    · simp only [h₁, if_true, Option.some.injEq] at he
      subst he
      simp only [ConfigError.Key, Option.some.injEq] at hkey
      exact absurd hkey k₂
    · by_cases h₂ : gc.ClientEmail = []
      · simp only [h₁, h₂, if_true, if_false, Option.some.injEq] at he
        subst he
        simp only [ConfigError.Key, Option.some.injEq] at hkey
        exact absurd hkey k₃
      · rcases h₃ : ParseAddress gc.ClientEmail with _ | err
        · exact ⟨h₁, h₂, rfl⟩
        · simp only [h₁, h₂, h₃, if_false, Option.some.injEq] at he
          subst he
          simp only [ConfigError.Key, Option.some.injEq] at hkey
          exact absurd hkey k₃

/-- C14 at credentials with every field empty, and at credentials whose only
flaw is the empty private key: the first are reported as `GCE_CLIENT_ID`, the
second as `GCE_PRIVATE_KEY`. -/
theorem Credentials_Validate_first_invalid_field_witness :
    (Credentials.mk [] [] []).Validate hasAt =
      some (.NewMissingConfigValue (gostr "GCE_CLIENT_ID") (gostr "ClientID")) ∧
    (Credentials.mk (gostr "spam") (gostr "user@mail.com") []).Validate hasAt =
      some (.NewMissingConfigValue (gostr "GCE_PRIVATE_KEY") (gostr "PrivateKey")) :=
  ⟨(Credentials_Validate_first_invalid_field hasAt ⟨[], [], []⟩).2.1 rfl,
    (Credentials_Validate_first_invalid_field hasAt
      ⟨gostr "spam", gostr "user@mail.com", []⟩).2.2.2.2.1
      (by decide) (by decide) (by decide) rfl⟩

/-- C15: for every map of strings (its entries in any iteration order, no key
twice), `NewCredentials` fails if and only if the map has a key other than
`GCE_CLIENT_ID`, `GCE_CLIENT_EMAIL` and `GCE_PRIVATE_KEY`, and then with the
not-supported error of such a key and no credentials; when it succeeds, each of
`ClientID`, `ClientEmail` and `PrivateKey` is the value under its key, or empty
when the key is absent. Whether it fails is the same for every iteration
order. -/
theorem NewCredentials_spec (values : List (GoString × GoString))
    (hmap : (values.map Prod.fst).Nodup) :
    ((∃ e, NewCredentials values = .error e) ↔
      ∃ kv ∈ values,
        kv.1 ≠ OSEnvClientID ∧ kv.1 ≠ OSEnvClientEmail ∧ kv.1 ≠ OSEnvPrivateKey) ∧
    (∀ e, NewCredentials values = .error e →
      ∃ kv ∈ values,
        (kv.1 ≠ OSEnvClientID ∧ kv.1 ≠ OSEnvClientEmail ∧ kv.1 ≠ OSEnvPrivateKey) ∧
        e = .NotSupportedf (gostr "key %q") kv.1) ∧
    (∀ c, NewCredentials values = .ok c →
      (∀ v, (OSEnvClientID, v) ∈ values → c.ClientID = v) ∧
      (OSEnvClientID ∉ values.map Prod.fst → c.ClientID = []) ∧
      (∀ v, (OSEnvClientEmail, v) ∈ values → c.ClientEmail = v) ∧
      (OSEnvClientEmail ∉ values.map Prod.fst → c.ClientEmail = []) ∧
      (∀ v, (OSEnvPrivateKey, v) ∈ values → c.PrivateKey = v) ∧
      (OSEnvPrivateKey ∉ values.map Prod.fst → c.PrivateKey = [])) ∧
    (∀ other : List (GoString × GoString), other.Perm values →
      ((∃ e, NewCredentials other = .error e) ↔ (∃ e, NewCredentials values = .error e))) := by
  refine ⟨newCredentials_error_iff values, ?_, ?_, ?_⟩
  · intro e he
    obtain ⟨kv, hmem, hkv, he'⟩ :=
      loop_error values ⟨[], [], []⟩ ((newCredentials_error_iff values).mp ⟨e, he⟩)
    unfold NewCredentials at he
    rw [he'] at he
    cases he
    exact ⟨kv, hmem, hkv, rfl⟩
  · intro c hc
    have hall : ∀ kv ∈ values,
        kv.1 = OSEnvClientID ∨ kv.1 = OSEnvClientEmail ∨ kv.1 = OSEnvPrivateKey := by
      intro kv hmem
      by_contra hk
      simp only [not_or] at hk
      obtain ⟨e, he⟩ := (newCredentials_error_iff values).mpr ⟨kv, hmem, hk⟩
      rw [he] at hc
      cases hc
    have := loop_eq values ⟨[], [], []⟩ hall
    unfold NewCredentials at hc
    rw [this] at hc
    cases hc
    exact ⟨fun v hv => lastValue_of_mem _ _ _ _ hmap hv,
      fun h => lastValue_of_not_mem _ _ _ h,
      fun v hv => lastValue_of_mem _ _ _ _ hmap hv,
      fun h => lastValue_of_not_mem _ _ _ h,
      fun v hv => lastValue_of_mem _ _ _ _ hmap hv,
      fun h => lastValue_of_not_mem _ _ _ h⟩
  · intro other hp
    rw [newCredentials_error_iff, newCredentials_error_iff]
    constructor
    · rintro ⟨kv, hmem, hkv⟩
      exact ⟨kv, hp.mem_iff.mp hmem, hkv⟩
    · rintro ⟨kv, hmem, hkv⟩
      exact ⟨kv, hp.mem_iff.mpr hmem, hkv⟩

/-- C15 at a map with the e-mail address and an unknown key `spam`: in either
iteration order `NewCredentials` fails with the not-supported error of
`spam`. -/
theorem NewCredentials_spec_witness :
    ([(OSEnvClientEmail, gostr "user@mail.com"), (gostr "spam", gostr "eggs")].map
      Prod.fst).Nodup ∧
    NewCredentials [(OSEnvClientEmail, gostr "user@mail.com"), (gostr "spam", gostr "eggs")] =
      .error (.NotSupportedf (gostr "key %q") (gostr "spam")) ∧
    NewCredentials [(gostr "spam", gostr "eggs"), (OSEnvClientEmail, gostr "user@mail.com")] =
      .error (.NotSupportedf (gostr "key %q") (gostr "spam")) ∧
    (∃ e, NewCredentials
      [(OSEnvClientEmail, gostr "user@mail.com"), (gostr "spam", gostr "eggs")] = .error e) :=
  ⟨by decide, rfl, rfl,
    (NewCredentials_spec [(OSEnvClientEmail, gostr "user@mail.com"), (gostr "spam", gostr "eggs")]
      (by decide)).1.mpr ⟨(gostr "spam", gostr "eggs"), by decide, by decide⟩⟩

/-- C16: round trip. For every `Credentials` value `c`, `c.Values()` is a map
with exactly the three keys `GCE_CLIENT_ID`, `GCE_CLIENT_EMAIL` and
`GCE_PRIVATE_KEY`, and `NewCredentials` on it, in every iteration order,
succeeds with credentials that have the `ClientID`, `ClientEmail` and
`PrivateKey` bytes of `c`. -/
theorem Values_NewCredentials_roundtrip (gc : Credentials) :
    gc.Values.map Prod.fst = [gostr "GCE_CLIENT_ID", gostr "GCE_CLIENT_EMAIL",
      gostr "GCE_PRIVATE_KEY"] ∧
    (gc.Values.map Prod.fst).Nodup ∧
    (∀ values : List (GoString × GoString), values.Perm gc.Values →
      ∃ c, NewCredentials values = .ok c ∧ c.ClientID = gc.ClientID ∧
        c.ClientEmail = gc.ClientEmail ∧ c.PrivateKey = gc.PrivateKey) := by
  have hnd : (gc.Values.map Prod.fst).Nodup := by
    simp only [Credentials.Values, List.map_cons, List.map_nil]
    decide
  refine ⟨rfl, hnd, ?_⟩
  intro values hp
  have hnd' : (values.map Prod.fst).Nodup := (hp.map Prod.fst).nodup_iff.mpr hnd
  have hall : ∀ kv ∈ values,
      kv.1 = OSEnvClientID ∨ kv.1 = OSEnvClientEmail ∨ kv.1 = OSEnvPrivateKey := by
    intro kv hmem
    have := hp.mem_iff.mp hmem
    simp only [Credentials.Values, List.mem_cons, List.mem_singleton, List.not_mem_nil,
      or_false] at this
    rcases this with h | h | h <;> simp [h]
  refine ⟨_, loop_eq values ⟨[], [], []⟩ hall, ?_, ?_, ?_⟩
  · exact lastValue_of_mem _ _ _ _ hnd' (hp.mem_iff.mpr (by simp [Credentials.Values]))
  · exact lastValue_of_mem _ _ _ _ hnd' (hp.mem_iff.mpr (by simp [Credentials.Values]))
  · exact lastValue_of_mem _ _ _ _ hnd' (hp.mem_iff.mpr (by simp [Credentials.Values]))

/-- C16 at credentials with three non-empty fields, with the map read in the
reverse of its literal order. -/
theorem Values_NewCredentials_roundtrip_witness :
    NewCredentials goodCredentials.Values.reverse = .ok goodCredentials ∧
    (∃ c, NewCredentials goodCredentials.Values.reverse = .ok c ∧
      c.ClientID = goodCredentials.ClientID ∧ c.ClientEmail = goodCredentials.ClientEmail ∧
      c.PrivateKey = goodCredentials.PrivateKey) :=
  ⟨rfl, (Values_NewCredentials_roundtrip goodCredentials).2.2 _ (List.reverse_perm _)⟩

/-- C17: for every `ConnectionConfig`, `Validate` returns nil if and only if
`Region` and `ProjectID` are both non-empty; with an empty `Region` the error
is the missing-value error keyed by `GCE_REGION` (also when `ProjectID` is empty
too), and with only `ProjectID` empty it is keyed by `GCE_PROJECT_ID`. -/
theorem ConnectionConfig_Validate_spec (gc : ConnectionConfig) :
    (gc.Validate = none ↔ gc.Region ≠ [] ∧ gc.ProjectID ≠ []) ∧
    (gc.Region = [] →
      gc.Validate = some (.NewMissingConfigValue (gostr "GCE_REGION") (gostr "Region"))) ∧
    (gc.Region ≠ [] → gc.ProjectID = [] →
      gc.Validate =
        some (.NewMissingConfigValue (gostr "GCE_PROJECT_ID") (gostr "ProjectID"))) := by
  unfold ConnectionConfig.Validate
  by_cases h₁ : gc.Region = []
  · simp [h₁, OSEnvRegion]
  · by_cases h₂ : gc.ProjectID = []
    · simp [h₁, h₂, OSEnvProjectID]
    · simp [h₁, h₂]

/-- C17 at a config with both fields empty and at one with only the project ID
empty. -/
theorem ConnectionConfig_Validate_spec_witness :
    (ConnectionConfig.mk [] []).Validate =
      some (.NewMissingConfigValue (gostr "GCE_REGION") (gostr "Region")) ∧
    (ConnectionConfig.mk (gostr "a") []).Validate =
      some (.NewMissingConfigValue (gostr "GCE_PROJECT_ID") (gostr "ProjectID")) :=
  ⟨(ConnectionConfig_Validate_spec ⟨[], []⟩).2.1 rfl,
    (ConnectionConfig_Validate_spec ⟨gostr "a", []⟩).2.2 (by decide) rfl⟩

end Google

namespace Cmd

/-! ## Command logging -/

theorem perform_infoWriter {W : Type} (fails : List (Call W) → Call W → Option String)
    (s : World W) (c : Call W) : (perform fails s c).1.infoWriter = s.infoWriter := rfl

theorem perform_verboseWriter {W : Type} (fails : List (Call W) → Call W → Option String)
    (s : World W) (c : Call W) : (perform fails s c).1.verboseWriter = s.verboseWriter := rfl

theorem startWriters_writers {W : Type} (fails : List (Call W) → Call W → Option String)
    (log : Log) (ctx : Context W) (s : World W) :
    (startWriters fails log ctx s).1.infoWriter = s.infoWriter ∧
      (startWriters fails log ctx s).1.verboseWriter = s.verboseWriter := by
  unfold startWriters
  simp only
  split_ifs <;> split <;> rename_i h <;>
    simp only [perform, Prod.mk.injEq] at h <;> obtain ⟨rfl, _⟩ := h <;> exact ⟨rfl, rfl⟩

theorem start_quiet_writers {W : Type} (fails : List (Call W) → Call W → Option String)
    (log : Log) (ctx : Context W) (s : World W) (hq : log.Quiet = true) :
    (Log.Start fails log ctx s).1.infoWriter = s.infoWriter ∧
      (Log.Start fails log ctx s).1.verboseWriter = s.verboseWriter := by
  unfold Log.Start
  simp only [hq, Bool.not_true, Bool.false_eq_true, if_false]
  split_ifs
  · exact ⟨rfl, rfl⟩
  · split
    · rename_i h
      simp only [perform, Prod.mk.injEq] at h
      obtain ⟨rfl, _⟩ := h
      exact ⟨rfl, rfl⟩
    · rename_i h
      simp only [perform, Prod.mk.injEq] at h
      obtain ⟨rfl, _⟩ := h
      split
      · rename_i h
        simp only [perform, Prod.mk.injEq] at h
        obtain ⟨rfl, _⟩ := h
        exact ⟨rfl, rfl⟩
      · rename_i h
        simp only [perform, Prod.mk.injEq] at h
        obtain ⟨rfl, _⟩ := h
        exact startWriters_writers fails log ctx _
  · exact startWriters_writers fails log ctx s

/-- C18: for every `Log` with both `Verbose` and `Quiet` set, `Start` returns
the error `"verbose" and "quiet" flags clash` and changes nothing: the state
after the call is the state before it, so `infoWriter` and `verboseWriter` keep
their values and no call is made (no log file opened, no writer registered or
replaced, no root level set), and the `Log` is as it was. -/
theorem Start_flags_clash {W : Type} (fails : List (Call W) → Call W → Option String)
    (log : Log) (ctx : Context W) (s : World W) (hv : log.Verbose = true)
    (hq : log.Quiet = true) :
    Log.Start fails log ctx s = (s, log, some "\"verbose\" and \"quiet\" flags clash") ∧
    (Log.Start fails log ctx s).1.infoWriter = s.infoWriter ∧
    (Log.Start fails log ctx s).1.verboseWriter = s.verboseWriter ∧
    (Log.Start fails log ctx s).1.calls = s.calls := by
  have h : Log.Start fails log ctx s =
      (s, log, some "\"verbose\" and \"quiet\" flags clash") := by
    unfold Log.Start
    simp [hv, hq]
  rw [h]
  exact ⟨rfl, rfl, rfl, rfl⟩

/-- C18 at a `Log` with only `Verbose` and `Quiet` set, in a state where
`infoWriter` is already set: the clash error, and the state as before. -/
theorem Start_flags_clash_witness :
    clashLog.Verbose = true ∧ clashLog.Quiet = true ∧
    Log.Start noFailure clashLog stderrContext infoSetWorld =
      (infoSetWorld, clashLog, some "\"verbose\" and \"quiet\" flags clash") :=
  ⟨rfl, rfl, (Start_flags_clash noFailure clashLog stderrContext infoSetWorld rfl rfl).1⟩

/-- C19 fails as stated: with `infoWriter` already set to the context's
`Stderr` before the call, `Start` on a `Log` with only `Quiet` set succeeds and
`infoWriter` is still set afterwards, so a following `Infof` writes its message
to `Stderr`. -/
theorem Start_quiet_writer_stays_set :
    quietLog.Quiet = true ∧
    (Log.Start noFailure quietLog stderrContext infoSetWorld).2.2 = none ∧
    (Log.Start noFailure quietLog stderrContext infoSetWorld).1.infoWriter =
      some stderrContext.Stderr ∧
    (Infof "hello" (Log.Start noFailure quietLog stderrContext infoSetWorld).1).calls =
      (Log.Start noFailure quietLog stderrContext infoSetWorld).1.calls ++
        [.WriteString stderrContext.Stderr "hello\n"] := by
  decide

/-- C19, amended: for every `Log` with `Quiet` set, `Start` leaves `infoWriter`
and `verboseWriter` as they were before the call; so when both were unset
before it (their value at program start) both are unset after it, and a
following `Infof` or `Verbosef` writes to no writer: its message goes to the
package logger. -/
theorem Start_quiet_leaves_writers {W : Type}
    (fails : List (Call W) → Call W → Option String) (log : Log) (ctx : Context W)
    (s : World W) (hq : log.Quiet = true) :
    (Log.Start fails log ctx s).1.infoWriter = s.infoWriter ∧
    (Log.Start fails log ctx s).1.verboseWriter = s.verboseWriter ∧
    (s.infoWriter = none → s.verboseWriter = none →
      (Log.Start fails log ctx s).1.infoWriter = none ∧
      (Log.Start fails log ctx s).1.verboseWriter = none ∧
      ∀ output : String,
        (Infof output (Log.Start fails log ctx s).1).calls =
          (Log.Start fails log ctx s).1.calls ++ [.LoggerInfof output] ∧
        (Verbosef output (Log.Start fails log ctx s).1).calls =
          (Log.Start fails log ctx s).1.calls ++ [.LoggerInfof output]) := by
  obtain ⟨hi, hv⟩ := start_quiet_writers fails log ctx s hq
  refine ⟨hi, hv, ?_⟩
  intro hin hvn
  rw [hin] at hi
  rw [hvn] at hv
  refine ⟨hi, hv, ?_⟩
  intro output
  simp [Infof, Verbosef, writeInternal, hi, hv]

/-- C19, amended, at program start: `Start` on a `Log` with only `Quiet` set
succeeds, both writers stay unset, and a following `Infof` makes no
`WriteString` call. -/
theorem Start_quiet_leaves_writers_witness :
    quietLog.Quiet = true ∧
    (Log.Start noFailure quietLog stderrContext initialWorld).2.2 = none ∧
    (Log.Start noFailure quietLog stderrContext initialWorld).1.infoWriter = none ∧
    (Log.Start noFailure quietLog stderrContext initialWorld).1.verboseWriter = none ∧
    (Infof "hello" (Log.Start noFailure quietLog stderrContext initialWorld).1).calls =
      (Log.Start noFailure quietLog stderrContext initialWorld).1.calls ++
        [.LoggerInfof "hello"] :=
  ⟨rfl, by decide,
    ((Start_quiet_leaves_writers noFailure quietLog stderrContext initialWorld rfl).2.2
      rfl rfl).1,
    ((Start_quiet_leaves_writers noFailure quietLog stderrContext initialWorld rfl).2.2
      rfl rfl).2.1,
    (((Start_quiet_leaves_writers noFailure quietLog stderrContext initialWorld rfl).2.2
      rfl rfl).2.2 "hello").1⟩

end Cmd
